import Mathlib

/-!
Shallow embedding of `src/main.cpp` (opencv_camtest), a command-line camera
benchmark.  Strings are Lean `String`s (modelling C++ `std::string` over
argv bytes), stream and `std::stoi` integer parsing is modelled explicitly,
`steady_clock` instants are natural numbers of nanoseconds since an
arbitrary epoch (the clock's actual representation), and the OpenCV capture
calls are modelled by their observable results: a device-open flag and a
list of frame-read results.
-/

/-- C-locale whitespace test (`isspace`), as used by stream extraction and
by `std::stoi`: space, tab, newline, vertical tab, form feed, carriage
return. -/
def isWs (c : Char) : Bool :=
  c.toNat = 32 || c.toNat = 9 || c.toNat = 10 || c.toNat = 11 || c.toNat = 12 || c.toNat = 13

/-- Decimal digit test. -/
def isDigitChar (c : Char) : Bool :=
  48 ≤ c.toNat && c.toNat ≤ 57

/-- Consume a maximal run of decimal digits, accumulating their value onto
`acc` (the digit-reading phase of `num_get` and `stoi`). -/
def takeDigits : List Char → Nat → Nat × List Char
  | [], acc => (acc, [])
  | c :: cs, acc =>
    if isDigitChar c then takeDigits cs (acc * 10 + (c.toNat - 48)) else (acc, c :: cs)

/-- Value of a digit string. -/
def digitsVal (ds : List Char) : Nat :=
  ds.foldl (fun a c => a * 10 + (c.toNat - 48)) 0

/-- Base-10 integer extraction into a C++ `int` as performed by
`operator>>(std::istream&, int&)` and by `std::stoi`: skip whitespace,
optional sign (codepoints 45 and 43 are the minus and plus signs), then at
least one digit; extraction stops at the first non-digit and fails when no
digit is found.  A digit run whose value falls outside the 32-bit `int`
range `[-2147483648, 2147483647]` is an error in both consumers — since
C++11 `num_get` stores the clamped value and sets `failbit` (so the
stream's boolean test is false), and `std::stoi` throws
`std::out_of_range` — so it is modelled as a failed extraction. -/
def extractInt (cs0 : List Char) : Option (Int × List Char) :=
  match cs0.dropWhile isWs with
  | [] => none
  | c :: t =>
    if c.toNat = 45 then
      match t with
      | [] => none
      | d :: _ =>
        if isDigitChar d then
          let p := takeDigits t 0
          if p.1 ≤ 2147483648 then some (-(p.1 : Int), p.2) else none
        else none
    else if c.toNat = 43 then
      match t with
      | [] => none
      | d :: _ =>
        if isDigitChar d then
          let p := takeDigits t 0
          if p.1 ≤ 2147483647 then some ((p.1 : Int), p.2) else none
        else none
    else if isDigitChar c then
      let p := takeDigits (c :: t) 0
      if p.1 ≤ 2147483647 then some ((p.1 : Int), p.2) else none
    else none

/-- Character extraction as performed by `operator>>(std::istream&, char&)`
with the default `skipws` flag: skip whitespace, then read one character;
fails at end of input. -/
def extractChar (cs : List Char) : Option (Char × List Char) :=
  match cs.dropWhile isWs with
  | [] => none
  | c :: t => some (c, t)

/-- `parseResolution` from `src/main.cpp` lines 59-66: evaluates
`ss >> width >> x >> height >> at >> fps` on a string stream and, when all
five extractions succeed, checks that the two separator characters are
literally `x` and `@`; the three integers are returned on success.  A
failed extraction anywhere in the chain makes the stream test false, hence
`none`. -/
def parseResolution (res : String) : Option (Int × Int × Int) :=
  match extractInt res.data with
  | none => none
  | some (width, r1) =>
    match extractChar r1 with
    | none => none
    | some (x, r2) =>
      match extractInt r2 with
      | none => none
      | some (height, r3) =>
        match extractChar r3 with
        | none => none
        | some (atc, r4) =>
          match extractInt r4 with
          | none => none
          | some (fps, _) =>
            if x = 'x' ∧ atc = '@' then some (width, height, fps) else none

/-- `fourccFromString` from `src/main.cpp` lines 20-23.  A string of length
other than 4 yields the sentinel 0; a 4-character string is packed by
`cv::VideoWriter::fourcc(c1, c2, c3, c4)`, whose documented formula is
`(c1 & 255) + ((c2 & 255) << 8) + ((c3 & 255) << 16) + ((c4 & 255) << 24)`.
The C++ `int` holds these 32 bits; the value is modelled as the
corresponding natural number below `2^32`, which is zero exactly when the
machine integer is zero. -/
def fourccFromString (format : String) : Nat :=
  match format.data with
  | [c0, c1, c2, c3] =>
    c0.toNat % 256 + (c1.toNat % 256) * 256 + (c2.toNat % 256) * 65536 +
      (c3.toNat % 256) * 16777216
  | _ => 0

/-- `std::stoi` on a decimal string: whitespace, optional sign, at least
one digit; `none` models the exceptions thrown for an unparsable string
(`std::invalid_argument`) or a value outside the `int` range
(`std::out_of_range`), both uncaught in this program, which therefore
terminates. -/
def stoi (s : String) : Option Int := (extractInt s.data).map Prod.fst

/-- Device-identifier derivation from `src/main.cpp` lines 76-81:
`device_str.rfind("/dev/video", 0) == 0` tests whether the string starts
with `/dev/video`; in that case `std::stoi(device_str.substr(10))` parses
the suffix, otherwise `std::stoi(device_str)` parses the whole string. -/
def parseDevice (s : String) : Option Int :=
  if ("/dev/video".data).isPrefixOf s.data then stoi ⟨s.data.drop 10⟩ else stoi s

/-- The option map built by `parseArgs` — a `std::map<std::string,
std::string>` restricted to the seven keys the program ever inserts or
reads. -/
structure Args where
  help : Option String := none
  device : Option String := none
  width : Option String := none
  height : Option String := none
  format : Option String := none
  resolution : Option String := none
  fps : Option String := none
deriving DecidableEq

/-- `parseArgs` from `src/main.cpp` lines 25-56, one token at a time.
Seeing `-h` or `--help` sets the help flag and returns at once (lines
30-33).  Every other recognised option stores the following token
unconditionally (`argv[++i]`); when no following token exists the C++ code
reads `argv[argc]`, a null pointer, and constructs a `std::string` from it
— that out-of-range access is modelled by `none`.  The dead `-h` disjunct
of the height branch (line 42) is kept as in the source. -/
def parseArgsAux : List String → Args → Option Args
  | [], m => some m
  | k :: rest, m =>
    if k = "-h" ∨ k = "--help" then some { m with help := some "1" }
    else if k = "-d" ∨ k = "--device" then
      match rest with
      | [] => none
      | v :: rest' => parseArgsAux rest' { m with device := some v }
    else if k = "-w" ∨ k = "--width" then
      match rest with
      | [] => none
      | v :: rest' => parseArgsAux rest' { m with width := some v }
    else if k = "-h" ∨ k = "--height" then
      match rest with
      | [] => none
      | v :: rest' => parseArgsAux rest' { m with height := some v }
    else if k = "-f" ∨ k = "--format" then
      match rest with
      | [] => none
      | v :: rest' => parseArgsAux rest' { m with format := some v }
    else if k = "-r" ∨ k = "--resolution" then
      match rest with
      | [] => none
      | v :: rest' => parseArgsAux rest' { m with resolution := some v }
    else if k = "-s" ∨ k = "--fps" then
      match rest with
      | [] => none
      | v :: rest' => parseArgsAux rest' { m with fps := some v }
    else parseArgsAux rest m

/-- The whole argument scan, over `argv[1..]` (the program name `argv[0]`
is skipped by the `for` loop starting at `i = 1`). -/
def parseArgs (argv : List String) : Option Args := parseArgsAux argv {}

/-- The tokens whose branch in `parseArgs` stores the following token as a
value.  The short `-h` is absent: it is intercepted by the help branch. -/
def valueTokens : List String :=
  ["-d", "--device", "-w", "--width", "--height", "-f", "--format",
   "-r", "--resolution", "-s", "--fps"]

/-- Which field the branch for option token `o` stores its value in. -/
def storeOpt (o v : String) (m : Args) : Args :=
  if o = "-d" ∨ o = "--device" then { m with device := some v }
  else if o = "-w" ∨ o = "--width" then { m with width := some v }
  else if o = "--height" then { m with height := some v }
  else if o = "-f" ∨ o = "--format" then { m with format := some v }
  else if o = "-r" ∨ o = "--resolution" then { m with resolution := some v }
  else if o = "-s" ∨ o = "--fps" then { m with fps := some v }
  else m

/-- Whole seconds in a nanosecond count, as computed by
`duration_cast<chrono::seconds>` on a `steady_clock` difference: the tick
period is one nanosecond and the cast truncates.  `steady_clock` is
monotone, so every difference taken by the program is non-negative and
truncation is plain natural division. -/
def secondsOf (d : Nat) : Nat := d / 1000000000

/-- Mutable state of the benchmark loop: `total_frames`,
`frames_last_second`, `last_report` (an instant, in nanoseconds), plus the
per-second counts printed so far (`Current FPS:` lines). -/
structure LoopState where
  total : Nat
  lastSec : Nat
  lastReport : Nat
  log : List Nat
deriving DecidableEq

/-- Result of the loop.  `failed` models a false `cap.read` (lines
121-126: error printed, `break`, counters untouched, no summary printed);
`done` models the 5-second duration elapsing (lines 141-147: summary with
total frames, elapsed whole seconds and the average
`total_frames / (double)total_elapsed`). -/
inductive Outcome where
  | failed (total lastSec : Nat) (log : List Nat)
  | done (total : Nat) (elapsed : Nat) (avg : ℚ) (log : List Nat)
deriving DecidableEq

/-- The fixed `test_duration_sec` constant (line 114). -/
def test_duration_sec : Nat := 5

/-- Counter update on a successful read (lines 128-139): increment both
counters; if at least one whole second has passed since `last_report`,
print and reset the per-second counter and move the report timestamp. -/
def updateCounters (s : LoopState) (now : Nat) : LoopState :=
  let total := s.total + 1
  let lastSec := s.lastSec + 1
  if 1 ≤ secondsOf (now - s.lastReport) then
    { total := total, lastSec := 0, lastReport := now, log := s.log ++ [lastSec] }
  else
    { total := total, lastSec := lastSec, lastReport := s.lastReport, log := s.log }

/-- One iteration of the `while (true)` loop, driven by the result of
`cap.read`: `none` models a failed read, `some now` a successful read
completing at instant `now` (nanoseconds).  After the counter update the
loop checks the total elapsed time and, once the test duration is reached,
prints the summary with `avg_fps = total_frames / (double)total_elapsed`
(the doubles produced by the runs considered here are exact, so the
quotient is modelled in `ℚ`). -/
def stepLoop (start : Nat) (s : LoopState) : Option Nat → LoopState ⊕ Outcome
  | none => Sum.inr (Outcome.failed s.total s.lastSec s.log)
  | some now =>
    let s' := updateCounters s now
    let totalElapsed := secondsOf (now - start)
    if test_duration_sec ≤ totalElapsed then
      Sum.inr (Outcome.done s'.total totalElapsed
        ((s'.total : ℚ) / (totalElapsed : ℚ)) s'.log)
    else Sum.inl s'

/-- Run the loop over a list of read results.  `none` means the input was
exhausted with the loop still running (the real loop would block inside
`cap.read`). -/
def runLoop (start : Nat) : LoopState → List (Option Nat) → Option Outcome
  | _, [] => none
  | s, r :: rest =>
    match stepLoop start s r with
    | Sum.inr o => some o
    | Sum.inl s' => runLoop start s' rest

/-- Loop state at entry (lines 115-119): both counters zero and
`last_report = start_time`. -/
def initState (start : Nat) : LoopState := ⟨0, 0, start, []⟩

/-- The benchmark loop from its start. -/
def runBench (start : Nat) (reads : List (Option Nat)) : Option Outcome :=
  runLoop start (initState start) reads

/-- Observable outcome of `main` (lines 68-152). -/
inductive MainResult where
  | argvOverrun
  | helped
  | crashed
  | badResolution
  | badFormat
  | openFailed
  | blocked
  | finished (o : Outcome)
deriving DecidableEq

/-- `main`, sequenced exactly as in the source: parse the arguments, honour
the help flag (exit 0), derive the device identifier (an unparsable string
makes `std::stoi` throw, which terminates the process — `crashed`), decode
an explicit resolution (exit 1 on failure), encode the format (exit 1 on a
zero fourcc), open the device (exit 1 on failure, modelled by the `openOk`
flag), then run the benchmark loop and release the device. -/
def mainRun (argv : List String) (openOk : Bool) (start : Nat)
    (reads : List (Option Nat)) : MainResult :=
  match parseArgs argv with
  | none => MainResult.argvOverrun
  | some args =>
    if args.help.isSome then MainResult.helped
    else
      match parseDevice (args.device.getD "0") with
      | none => MainResult.crashed
      | some _device =>
        let resolutionOk : Bool :=
          match args.resolution with
          | none => true
          | some r => (parseResolution r).isSome
        if resolutionOk = false then MainResult.badResolution
        else if fourccFromString (args.format.getD "MJPG") = 0 then MainResult.badFormat
        else if openOk = false then MainResult.openFailed
        else
          match runBench start reads with
          | none => MainResult.blocked
          | some o => MainResult.finished o

/-- Process exit code for each outcome; `none` where the process does not
exit normally (undefined behaviour on the argv overrun, `std::terminate`
after the uncaught `stoi` exception, or blocking forever). -/
def exitCode : MainResult → Option Nat
  | MainResult.helped => some 0
  | MainResult.badResolution => some 1
  | MainResult.badFormat => some 1
  | MainResult.openFailed => some 1
  | MainResult.finished _ => some 0
  | _ => none

/-- Whether `cap.release()` (line 150) runs on the way out: only the paths
that fall out of the benchmark loop reach it. -/
def released : MainResult → Bool
  | MainResult.finished _ => true
  | _ => false

example : parseArgs ["-h", "500"] = some { help := some "1" } := by decide
example : parseArgs ["-w", "--help"] = some { width := some "--help" } := by decide
example : parseArgs ["-h"] = some { help := some "1" } := by decide
example : parseArgs ["-w"] = none := by decide
example : parseArgs ["--height", "500"] = some { height := some "500" } := by decide
example : mainRun ["--help", "-r", "zzz"] true 0 [] = MainResult.helped := by decide
example : mainRun ["-r", "zzz"] true 0 [] = MainResult.badResolution := by decide
example : mainRun ["-f", "abc"] true 0 [] = MainResult.badFormat := by decide
example : mainRun [] false 0 [] = MainResult.openFailed := by decide
example : mainRun [] true 0 [none] = MainResult.finished (Outcome.failed 0 0 []) := by decide
example :
    runBench 0 [some 1000000000, none] = some (Outcome.failed 1 0 [1]) := by decide
example :
    runBench 0 ([1, 2, 3, 4, 5].map (fun k => some (k * 1000000000))) =
      some (Outcome.done 5 5 ((5 : ℚ) / (5 : ℚ)) [1, 1, 1, 1, 1]) := by
  with_unfolding_all decide

example : parseResolution "640x480@60" = some (640, 480, 60) := by decide
example : parseResolution "640x480" = none := by decide
example : parseResolution "640y480@60" = none := by decide
example : parseResolution "640x480@60junk" = some (640, 480, 60) := by decide
example : parseResolution " 640 x 480 @ 60" = some (640, 480, 60) := by decide
example : fourccFromString "MJPG" = 77 + 74 * 256 + 80 * 65536 + 71 * 16777216 := by decide
example : fourccFromString "abc" = 0 := by decide
example : fourccFromString "abcde" = 0 := by decide
example : parseDevice "/dev/video3" = some 3 := by decide
example : parseDevice "2" = some 2 := by decide
example : stoi "abc" = none := by decide
example : parseResolution "9999999999x480@60" = none := by decide
example : parseResolution "2147483647x480@60" = some (2147483647, 480, 60) := by decide
example : parseDevice "9999999999" = none := by decide
example : parseDevice "2147483647" = some 2147483647 := by decide
example : stoi "-2147483648" = some (-2147483648) := by decide
example : stoi "-2147483649" = none := by decide

/-! ## Helper lemmas -/

lemma isWs_eq_false_of_digit {c : Char} (h : isDigitChar c = true) : isWs c = false := by
  simp only [isDigitChar, Bool.and_eq_true, decide_eq_true_eq] at h
  simp only [isWs, Bool.or_eq_false_iff, decide_eq_false_iff_not]
  omega

lemma toNat_ne_45_of_digit {c : Char} (h : isDigitChar c = true) : ¬ c.toNat = 45 := by
  simp only [isDigitChar, Bool.and_eq_true, decide_eq_true_eq] at h
  omega

lemma toNat_ne_43_of_digit {c : Char} (h : isDigitChar c = true) : ¬ c.toNat = 43 := by
  simp only [isDigitChar, Bool.and_eq_true, decide_eq_true_eq] at h
  omega

lemma takeDigits_append (ds : List Char) (rest : List Char) (acc : Nat)
    (hds : ∀ c ∈ ds, isDigitChar c = true)
    (hrest : rest = [] ∨ ∃ c cs, rest = c :: cs ∧ isDigitChar c = false) :
    takeDigits (ds ++ rest) acc =
      (ds.foldl (fun a c => a * 10 + (c.toNat - 48)) acc, rest) := by
  induction ds generalizing acc with
  | nil =>
    rcases hrest with h | ⟨c, cs, rfl, hc⟩
    · subst h; simp [takeDigits]
    · simp [takeDigits, hc]
  | cons d ds ih =>
    have hd : isDigitChar d = true := hds d (by simp)
    simp only [List.cons_append, takeDigits, hd, if_true, List.foldl_cons]
    exact ih _ (fun c hc => hds c (by simp [hc]))

lemma extractInt_digits (ds rest : List Char)
    (hne : ds ≠ [])
    (hds : ∀ c ∈ ds, isDigitChar c = true)
    (hrest : rest = [] ∨ ∃ c cs, rest = c :: cs ∧ isDigitChar c = false)
    (hbound : digitsVal ds ≤ 2147483647) :
    extractInt (ds ++ rest) = some ((digitsVal ds : Int), rest) := by
  match ds, hne with
  | d :: ds', _ =>
    have hd : isDigitChar d = true := hds d (by simp)
    have hw : isWs d = false := isWs_eq_false_of_digit hd
    have h45 : ¬ d.toNat = 45 := toNat_ne_45_of_digit hd
    have h43 : ¬ d.toNat = 43 := toNat_ne_43_of_digit hd
    have htake := takeDigits_append (d :: ds') rest 0 hds hrest
    simp only [extractInt, List.cons_append, List.dropWhile_cons, hw, Bool.false_eq_true,
      if_false, if_neg h45, if_neg h43, hd, if_true]
    rw [show d :: (ds' ++ rest) = (d :: ds') ++ rest from rfl, htake]
    have hb : ((d :: ds').foldl (fun a c => a * 10 + (c.toNat - 48)) 0, rest).1 ≤ 2147483647 :=
      hbound
    rw [if_pos hb]
    rfl

lemma extractInt_digits_overflow (ds rest : List Char)
    (hne : ds ≠ [])
    (hds : ∀ c ∈ ds, isDigitChar c = true)
    (hrest : rest = [] ∨ ∃ c cs, rest = c :: cs ∧ isDigitChar c = false)
    (hbound : 2147483647 < digitsVal ds) :
    extractInt (ds ++ rest) = none := by
  match ds, hne with
  | d :: ds', _ =>
    have hd : isDigitChar d = true := hds d (by simp)
    have hw : isWs d = false := isWs_eq_false_of_digit hd
    have h45 : ¬ d.toNat = 45 := toNat_ne_45_of_digit hd
    have h43 : ¬ d.toNat = 43 := toNat_ne_43_of_digit hd
    have htake := takeDigits_append (d :: ds') rest 0 hds hrest
    simp only [extractInt, List.cons_append, List.dropWhile_cons, hw, Bool.false_eq_true,
      if_false, if_neg h45, if_neg h43, hd, if_true]
    rw [show d :: (ds' ++ rest) = (d :: ds') ++ rest from rfl, htake]
    have hb : ¬ ((d :: ds').foldl (fun a c => a * 10 + (c.toNat - 48)) 0, rest).1 ≤ 2147483647 := by
      have h : ¬ digitsVal (d :: ds') ≤ 2147483647 := by omega
      exact h
    rw [if_neg hb]

lemma extractChar_cons {c : Char} (t : List Char) (hw : isWs c = false) :
    extractChar (c :: t) = some (c, t) := by
  simp [extractChar, List.dropWhile_cons, hw]

lemma isPrefixOf_append_self {α : Type} [BEq α] [LawfulBEq α] (l t : List α) :
    l.isPrefixOf (l ++ t) = true := by
  induction l with
  | nil => simp
  | cons a l ih => simp [List.isPrefixOf_cons₂, ih]

lemma updateCounters_total (s : LoopState) (now : Nat) :
    (updateCounters s now).total = s.total + 1 := by
  simp only [updateCounters]
  split <;> rfl

example : extractInt ['1', '2', '3'] = some (123, []) := by
  have := extractInt_digits ['1', '2', '3'] [] (by simp) (by decide) (Or.inl rfl) (by decide)
  simpa using this

lemma parseArgsAux_help_short (rest : List String) (m : Args) :
    parseArgsAux ("-h" :: rest) m = some { m with help := some "1" } := by
  rw [parseArgsAux.eq_def]; rfl

lemma parseArgsAux_help_long (rest : List String) (m : Args) :
    parseArgsAux ("--help" :: rest) m = some { m with help := some "1" } := by
  rw [parseArgsAux.eq_def]; rfl

lemma mainRun_help_cons (k : String) (hk : k = "-h" ∨ k = "--help") (rest : List String)
    (openOk : Bool) (start : Nat) (reads : List (Option Nat)) :
    mainRun (k :: rest) openOk start reads = MainResult.helped := by
  unfold mainRun parseArgs
  obtain rfl | rfl := hk
  · rw [parseArgsAux_help_short]; rfl
  · rw [parseArgsAux_help_long]; rfl

/-! ## C4 -/

/-- C4, counterexample: on the argument list `["-h", "500"]` the short
token `-h` is captured by the help branch, not by the height branch — the
result has the help flag set and no height value, contradicting the claim
that `-h` sets the height option by consuming the following token. -/
theorem shortHelp_counterexample :
    parseArgs ["-h", "500"] = some { help := some "1" } ∧
    ({ help := some "1" } : Args).height ≠ some "500" := by decide

/-- C4, amended: the `--help` detection wins when spelled out, and the
short `-h` is likewise captured by the help branch, which is tested first
in sequence (lines 30-33); the height branch's own `-h` test (line 42) is
unreachable, so only `--height` stores a height value. -/
theorem helpBranch_precedence :
    (∀ (rest : List String) (m : Args),
        parseArgsAux ("-h" :: rest) m = some { m with help := some "1" }) ∧
    (∀ (rest : List String) (m : Args),
        parseArgsAux ("--help" :: rest) m = some { m with help := some "1" }) ∧
    (∀ (v : String) (rest : List String) (m : Args),
        parseArgsAux ("--height" :: v :: rest) m =
          parseArgsAux rest { m with height := some v }) :=
  ⟨parseArgsAux_help_short, parseArgsAux_help_long, fun _ _ _ => rfl⟩

/-! ## C5 -/

/-- C5, counterexample: the argument list `["-w", "--help"]` contains the
help token, yet the parser does not return with only the help flag set:
`--help` is consumed as the value of `-w`, so the result has no help flag
at all. -/
theorem helpToken_counterexample :
    parseArgs ["-w", "--help"] = some { width := some "--help" } ∧
    ({ width := some "--help" } : Args).help = none := by decide

/-- C5, amended: when a help token is encountered in key position the
parser returns immediately with the help flag set on the map built so far
(options parsed from earlier tokens are retained, and a help token sitting
in value position is consumed as an ordinary value); in particular, with
`--help` as the first argument the parser returns only the help flag, the
program prints the usage text and exits with code 0 regardless of any
later arguments. -/
theorem helpFlag_shortCircuit :
    (∀ (rest : List String) (m : Args),
        parseArgsAux ("--help" :: rest) m = some { m with help := some "1" }) ∧
    (∀ rest : List String, parseArgs ("--help" :: rest) = some { help := some "1" }) ∧
    (∀ (rest : List String) (openOk : Bool) (start : Nat) (reads : List (Option Nat)),
        mainRun ("--help" :: rest) openOk start reads = MainResult.helped) ∧
    exitCode MainResult.helped = some 0 :=
  ⟨parseArgsAux_help_long, fun rest => parseArgsAux_help_long rest {},
   fun rest openOk start reads => mainRun_help_cons "--help" (Or.inr rfl) rest openOk start reads,
   rfl⟩

/-! ## C9 -/

/-- C9, counterexample: the claim counts `-h` among the value-taking
option tokens, but with `-h` as the last token the parser does not read
past the end of the input: the help branch intercepts it and returns a
well-defined result. -/
theorem valueOption_counterexample :
    parseArgs ["-h"] = some { help := some "1" } ∧ parseArgs ["-h"] ≠ none := by decide

/-- C9, amended: for every value-taking option token — `-d`/`--device`,
`-w`/`--width`, `--height` (the short `-h` is intercepted by the help
branch and never reaches the height branch), `-f`/`--format`,
`-r`/`--resolution`, `-s`/`--fps` — the parser consumes the following
token unconditionally as the option's value; when such an option is the
last token the parser reads past the end of the token list (the error
branch of the bounds-checked embedding is reached). -/
theorem valueOption_consumesNext :
    ∀ o ∈ valueTokens,
      (∀ (v : String) (rest : List String) (m : Args),
          parseArgsAux (o :: v :: rest) m = parseArgsAux rest (storeOpt o v m)) ∧
      (∀ m : Args, parseArgsAux [o] m = none) := by
  intro o ho
  fin_cases ho <;> exact ⟨fun _ _ _ => rfl, fun _ => rfl⟩

/-- C9 witness: instance of the amended claim at the `-d` token. -/
theorem valueOption_consumesNext_witness :
    (parseArgsAux ["-d", "x"] {} = parseArgsAux [] (storeOpt "-d" "x" {})) ∧
    parseArgsAux ["-d"] {} = none := by
  have h := valueOption_consumesNext "-d" (by decide)
  exact ⟨h.1 "x" [] {}, h.2 {}⟩

/-! ## Main-flow reduction helpers -/

lemma mainRun_resolution_eq (r : String) (openOk : Bool) (start : Nat)
    (reads : List (Option Nat)) :
    mainRun ["-r", r] openOk start reads =
      if (parseResolution r).isSome = false then MainResult.badResolution
      else if openOk = false then MainResult.openFailed
      else
        match runBench start reads with
        | none => MainResult.blocked
        | some o => MainResult.finished o := rfl

lemma mainRun_format_eq (f : String) (openOk : Bool) (start : Nat)
    (reads : List (Option Nat)) :
    mainRun ["-f", f] openOk start reads =
      if fourccFromString f = 0 then MainResult.badFormat
      else if openOk = false then MainResult.openFailed
      else
        match runBench start reads with
        | none => MainResult.blocked
        | some o => MainResult.finished o := rfl

lemma mainRun_device_eq (s : String) (openOk : Bool) (start : Nat)
    (reads : List (Option Nat)) :
    mainRun ["-d", s] openOk start reads =
      match parseDevice s with
      | none => MainResult.crashed
      | some _ =>
        if openOk = false then MainResult.openFailed
        else
          match runBench start reads with
          | none => MainResult.blocked
          | some o => MainResult.finished o := rfl

lemma mainRun_noArgs_eq (start : Nat) (reads : List (Option Nat)) :
    mainRun [] true start reads =
      match runBench start reads with
      | none => MainResult.blocked
      | some o => MainResult.finished o := rfl

/-! ## C2 -/

/-- A character that the stream extraction treats as a pure separator: not
a digit, not whitespace, not a sign. -/
def sepChar (c : Char) : Prop :=
  isDigitChar c = false ∧ isWs c = false ∧ c.toNat ≠ 45 ∧ c.toNat ≠ 43

instance (c : Char) : Decidable (sepChar c) := by
  unfold sepChar; exact inferInstance

/-- C2: on every string of the shape `<digits> c1 <digits> c2 <digits>`
whose digit runs denote representable `int` values, the decoder succeeds
exactly when the separator characters `c1`, `c2` are literally `x` and
`@`, in which case it extracts exactly the three integers; a leading digit
run beyond `INT_MAX` does not parse (the C++17 extraction sets `failbit`)
and the decoder fails; and on any decoder failure the program reports the
invalid resolution and exits with code 1 before any capture configuration
happens. -/
theorem resolutionDecoder_shape :
    (∀ (dw dh df : List Char) (cx ca : Char),
        dw ≠ [] → dh ≠ [] → df ≠ [] →
        (∀ c ∈ dw, isDigitChar c = true) → (∀ c ∈ dh, isDigitChar c = true) →
        (∀ c ∈ df, isDigitChar c = true) →
        digitsVal dw ≤ 2147483647 → digitsVal dh ≤ 2147483647 →
        digitsVal df ≤ 2147483647 → sepChar cx → sepChar ca →
        parseResolution ⟨dw ++ cx :: (dh ++ ca :: df)⟩ =
          if cx = 'x' ∧ ca = '@'
          then some ((digitsVal dw : Int), (digitsVal dh : Int), (digitsVal df : Int))
          else none) ∧
    (∀ dw rest : List Char,
        dw ≠ [] → (∀ c ∈ dw, isDigitChar c = true) →
        (rest = [] ∨ ∃ c cs, rest = c :: cs ∧ isDigitChar c = false) →
        2147483647 < digitsVal dw →
        parseResolution ⟨dw ++ rest⟩ = none) ∧
    (∀ (r : String) (openOk : Bool) (start : Nat) (reads : List (Option Nat)),
        parseResolution r = none →
        mainRun ["-r", r] openOk start reads = MainResult.badResolution) ∧
    exitCode MainResult.badResolution = some 1 := by
  refine ⟨?_, ?_, ?_, rfl⟩
  · intro dw dh df cx ca hw hh hf hdw hdh hdf hbw hbh hbf hcx hca
    obtain ⟨hcxd, hcxw, _, _⟩ := hcx
    obtain ⟨hcad, hcaw, _, _⟩ := hca
    have e1 : extractInt (dw ++ cx :: (dh ++ ca :: df)) =
        some ((digitsVal dw : Int), cx :: (dh ++ ca :: df)) :=
      extractInt_digits dw _ hw hdw (Or.inr ⟨cx, _, rfl, hcxd⟩) hbw
    have e2 : extractChar (cx :: (dh ++ ca :: df)) = some (cx, dh ++ ca :: df) :=
      extractChar_cons _ hcxw
    have e3 : extractInt (dh ++ ca :: df) = some ((digitsVal dh : Int), ca :: df) :=
      extractInt_digits dh _ hh hdh (Or.inr ⟨ca, _, rfl, hcad⟩) hbh
    have e4 : extractChar (ca :: df) = some (ca, df) := extractChar_cons _ hcaw
    have e5 : extractInt df = some ((digitsVal df : Int), []) := by
      have h := extractInt_digits df [] hf hdf (Or.inl rfl) hbf
      rw [List.append_nil] at h
      exact h
    unfold parseResolution
    rw [show (⟨dw ++ cx :: (dh ++ ca :: df)⟩ : String).data =
      dw ++ cx :: (dh ++ ca :: df) from rfl]
    simp only [e1, e2, e3, e4, e5]
  · intro dw rest hw hdw hrest hover
    have e1 : extractInt (dw ++ rest) = none :=
      extractInt_digits_overflow dw rest hw hdw hrest hover
    unfold parseResolution
    rw [show (⟨dw ++ rest⟩ : String).data = dw ++ rest from rfl]
    simp only [e1]
  · intro r openOk start reads h
    rw [mainRun_resolution_eq, h]
    rfl

/-- C2 witness: the canonical resolution string `640x480@60` decodes to
the triple (640, 480, 60); a width beyond `INT_MAX` fails to parse; and a
malformed string makes the program exit on the bad-resolution path. -/
theorem resolutionDecoder_shape_witness :
    parseResolution ⟨['6', '4', '0'] ++ 'x' :: (['4', '8', '0'] ++ '@' :: ['6', '0'])⟩ =
      (if ('x' = 'x' ∧ '@' = '@')
       then some ((digitsVal ['6', '4', '0'] : Int), (digitsVal ['4', '8', '0'] : Int),
         (digitsVal ['6', '0'] : Int))
       else none) ∧
    parseResolution ⟨['9', '9', '9', '9', '9', '9', '9', '9', '9', '9'] ++
      'x' :: ['4', '8', '0', '@', '6', '0']⟩ = none ∧
    mainRun ["-r", "640x480"] true 0 [] = MainResult.badResolution :=
  ⟨resolutionDecoder_shape.1 ['6', '4', '0'] ['4', '8', '0'] ['6', '0'] 'x' '@'
      (by decide) (by decide) (by decide) (by decide) (by decide) (by decide)
      (by decide) (by decide) (by decide) (by decide) (by decide),
   resolutionDecoder_shape.2.1 ['9', '9', '9', '9', '9', '9', '9', '9', '9', '9']
      ('x' :: ['4', '8', '0', '@', '6', '0']) (by decide) (by decide)
      (Or.inr ⟨'x', ['4', '8', '0', '@', '6', '0'], rfl, by decide⟩) (by decide),
   resolutionDecoder_shape.2.2.1 "640x480" true 0 [] (by decide)⟩

/-! ## C3 -/

/-- C3: every format string whose length differs from 4 is encoded to the
sentinel 0 and makes the program exit with code 1 on the invalid-format
path; every 4-character format over genuine argv bytes (no NUL, single
byte per character) is packed to a non-zero code, deterministically (the
encoder is a pure function of the string). -/
theorem formatEncoder_length :
    (∀ format : String, format.data.length ≠ 4 → fourccFromString format = 0) ∧
    (∀ (format : String) (openOk : Bool) (start : Nat) (reads : List (Option Nat)),
        format.data.length ≠ 4 →
        mainRun ["-f", format] openOk start reads = MainResult.badFormat) ∧
    exitCode MainResult.badFormat = some 1 ∧
    (∀ c0 c1 c2 c3 : Char,
        (∀ c ∈ [c0, c1, c2, c3], 0 < c.toNat ∧ c.toNat < 256) →
        fourccFromString ⟨[c0, c1, c2, c3]⟩ ≠ 0) := by
  have hzero : ∀ format : String, format.data.length ≠ 4 → fourccFromString format = 0 := by
    rintro ⟨l⟩ hl
    match l, hl with
    | [], _ => rfl
    | [a], _ => rfl
    | [a, b], _ => rfl
    | [a, b, c], _ => rfl
    | [a, b, c, d], h => exact absurd rfl h
    | a :: b :: c :: d :: e :: t, _ => rfl
  refine ⟨hzero, ?_, rfl, ?_⟩
  · intro format openOk start reads hlen
    rw [mainRun_format_eq, hzero format hlen]
    rfl
  · intro c0 c1 c2 c3 h
    have h0 := h c0 (by simp)
    intro hEq
    have hval : fourccFromString ⟨[c0, c1, c2, c3]⟩ =
        c0.toNat % 256 + (c1.toNat % 256) * 256 + (c2.toNat % 256) * 65536 +
          (c3.toNat % 256) * 16777216 := rfl
    rw [hval] at hEq
    have hm : c0.toNat % 256 = c0.toNat := Nat.mod_eq_of_lt h0.2
    omega

/-- C3 witness: `abc` (length 3) encodes to 0 and aborts the run; `MJPG`
encodes to a non-zero code. -/
theorem formatEncoder_length_witness :
    fourccFromString "abc" = 0 ∧
    mainRun ["-f", "abc"] true 0 [] = MainResult.badFormat ∧
    fourccFromString ⟨['M', 'J', 'P', 'G']⟩ ≠ 0 :=
  ⟨formatEncoder_length.1 "abc" (by decide),
   formatEncoder_length.2.1 "abc" true 0 [] (by decide),
   formatEncoder_length.2.2.2 'M' 'J' 'P' 'G' (by decide)⟩

/-! ## C6 -/

/-- C6: a device argument of the form `/dev/video<N>` (digit suffix `N`
representable as a C++ `int`) yields the device identifier `N`, and a bare
digit-string argument yields the integer it denotes; a digit string beyond
`INT_MAX` makes `std::stoi` throw `std::out_of_range`, which is uncaught,
so the program terminates instead of deriving an identifier. -/
theorem deviceIdentifier_forms (ds : List Char) (hne : ds ≠ [])
    (hds : ∀ c ∈ ds, isDigitChar c = true) :
    (digitsVal ds ≤ 2147483647 →
      parseDevice ⟨"/dev/video".data ++ ds⟩ = some ((digitsVal ds : Nat) : Int) ∧
      parseDevice ⟨ds⟩ = some ((digitsVal ds : Nat) : Int)) ∧
    (2147483647 < digitsVal ds →
      parseDevice ⟨"/dev/video".data ++ ds⟩ = none ∧
      parseDevice ⟨ds⟩ = none ∧
      ∀ (openOk : Bool) (start : Nat) (reads : List (Option Nat)),
        mainRun ["-d", ⟨ds⟩] openOk start reads = MainResult.crashed) := by
  have hdrop : ("/dev/video".data ++ ds).drop 10 = ds := by
    have h10 : ("/dev/video".data).length = 10 := rfl
    rw [← h10, List.drop_left]
  have hpreF : ¬ ("/dev/video".data).isPrefixOf ds = true := by
    match ds, hne, hds with
    | c :: cs, _, hds =>
      have hc := hds c (by simp)
      intro hpre
      rw [show "/dev/video".data = '/' :: "dev/video".data from rfl,
        List.isPrefixOf_cons₂] at hpre
      simp only [Bool.and_eq_true, beq_iff_eq] at hpre
      rw [← hpre.1] at hc
      exact absurd hc (by decide)
  constructor
  · intro hbound
    have hstoi : stoi ⟨ds⟩ = some ((digitsVal ds : Nat) : Int) := by
      unfold stoi
      have h := extractInt_digits ds [] hne hds (Or.inl rfl) hbound
      rw [List.append_nil] at h
      rw [show (⟨ds⟩ : String).data = ds from rfl, h]
      rfl
    constructor
    · unfold parseDevice
      rw [show (⟨"/dev/video".data ++ ds⟩ : String).data = "/dev/video".data ++ ds from rfl]
      rw [if_pos (isPrefixOf_append_self _ _), hdrop]
      exact hstoi
    · unfold parseDevice
      rw [show (⟨ds⟩ : String).data = ds from rfl]
      rw [if_neg hpreF]
      exact hstoi
  · intro hover
    have hstoi : stoi ⟨ds⟩ = none := by
      unfold stoi
      have h := extractInt_digits_overflow ds [] hne hds (Or.inl rfl) hover
      rw [List.append_nil] at h
      rw [show (⟨ds⟩ : String).data = ds from rfl, h]
      rfl
    have hdev : parseDevice ⟨ds⟩ = none := by
      unfold parseDevice
      rw [show (⟨ds⟩ : String).data = ds from rfl]
      rw [if_neg hpreF]
      exact hstoi
    refine ⟨?_, hdev, ?_⟩
    · unfold parseDevice
      rw [show (⟨"/dev/video".data ++ ds⟩ : String).data = "/dev/video".data ++ ds from rfl]
      rw [if_pos (isPrefixOf_append_self _ _), hdrop]
      exact hstoi
    · intro openOk start reads
      rw [mainRun_device_eq, hdev]

/-- C6 witness: `/dev/video3` yields identifier 3, `2` yields 2, and the
out-of-int-range string `9999999999` makes the run terminate on the
uncaught exception. -/
theorem deviceIdentifier_forms_witness :
    parseDevice "/dev/video3" = some ((digitsVal ['3'] : Nat) : Int) ∧
    parseDevice "2" = some ((digitsVal ['2'] : Nat) : Int) ∧
    parseDevice ⟨['9', '9', '9', '9', '9', '9', '9', '9', '9', '9']⟩ = none ∧
    mainRun ["-d", ⟨['9', '9', '9', '9', '9', '9', '9', '9', '9', '9']⟩] true 0 [] =
      MainResult.crashed := by
  have h9 := (deviceIdentifier_forms ['9', '9', '9', '9', '9', '9', '9', '9', '9', '9']
    (by decide) (by decide)).2 (by decide)
  exact ⟨((deviceIdentifier_forms ['3'] (by decide) (by decide)).1 (by decide)).1,
    ((deviceIdentifier_forms ['2'] (by decide) (by decide)).1 (by decide)).2,
    h9.2.1, h9.2.2 true 0 []⟩

/-! ## Benchmark-loop lemmas -/

lemma runLoop_done_avg (start : Nat) :
    ∀ (reads : List (Option Nat)) (s : LoopState) (tf el : Nat) (avg : ℚ) (log : List Nat),
      runLoop start s reads = some (Outcome.done tf el avg log) →
      avg = (tf : ℚ) / (el : ℚ) ∧ test_duration_sec ≤ el ∧
      ∃ n, n ≤ reads.length ∧ (reads.take n).all Option.isSome = true ∧ tf = s.total + n := by
  intro reads
  induction reads with
  | nil => intro s tf el avg log h; simp [runLoop] at h
  | cons r rest ih =>
    intro s tf el avg log h
    match r with
    | none => simp [runLoop, stepLoop] at h
    | some now =>
      simp only [runLoop, stepLoop] at h
      by_cases hd : test_duration_sec ≤ secondsOf (now - start)
      · rw [if_pos hd] at h
        simp only [Option.some.injEq, Outcome.done.injEq] at h
        obtain ⟨htf, hel, havg, _⟩ := h
        refine ⟨?_, ?_, 1, by simp, by simp, ?_⟩
        · rw [← havg, ← htf, ← hel]
        · rw [← hel]; exact hd
        · rw [← htf, updateCounters_total]
      · rw [if_neg hd] at h
        obtain ⟨h1, h2, n, hn, hall, htf⟩ := ih _ _ _ _ _ h
        refine ⟨h1, h2, n + 1, by simpa using hn, ?_, ?_⟩
        · simp only [List.take_succ_cons, List.all_cons, Option.isSome_some, Bool.true_and]
          exact hall
        · rw [htf, updateCounters_total]
          omega

lemma runLoop_fail_prefix (start : Nat) :
    ∀ (p : List (Option Nat)) (s : LoopState),
      (∀ x ∈ p, ∃ t, x = some t ∧ secondsOf (t - start) < test_duration_sec) →
      ∃ ls log, ∀ rest : List (Option Nat),
        runLoop start s (p ++ none :: rest) =
          some (Outcome.failed (s.total + p.length) ls log) := by
  intro p
  induction p with
  | nil =>
    intro s _
    exact ⟨s.lastSec, s.log, fun rest => by simp [runLoop, stepLoop]⟩
  | cons x p ih =>
    intro s hp
    obtain ⟨t, rfl, ht⟩ := hp x (by simp)
    obtain ⟨ls, log, h⟩ := ih (updateCounters s t) (fun y hy => hp y (by simp [hy]))
    refine ⟨ls, log, fun rest => ?_⟩
    have hstep : runLoop start s ((some t :: p) ++ none :: rest) =
        runLoop start (updateCounters s t) (p ++ none :: rest) := by
      simp only [List.cons_append, runLoop, stepLoop]
      rw [if_neg (by omega)]
      rfl
    rw [hstep, h rest]
    have htot : (updateCounters s t).total + p.length = s.total + (some t :: p).length := by
      rw [updateCounters_total]
      simp only [List.length_cons]
      omega
    rw [htot]

/-! ## C1 -/

/-- C1: whenever the benchmark loop finishes normally (the 5-second test
duration is reached right after a successful frame read), the summary
reports as total the number of successfully read frames of the run and an
average FPS equal to this total divided by the elapsed whole seconds. -/
theorem benchSummary_avg (start : Nat) (reads : List (Option Nat))
    (tf el : Nat) (avg : ℚ) (log : List Nat)
    (h : runBench start reads = some (Outcome.done tf el avg log)) :
    avg = (tf : ℚ) / (el : ℚ) ∧ test_duration_sec ≤ el ∧
    ∃ n, n ≤ reads.length ∧ (reads.take n).all Option.isSome = true ∧ tf = n := by
  obtain ⟨h1, h2, n, hn, hall, htf⟩ :=
    runLoop_done_avg start reads (initState start) tf el avg log h
  exact ⟨h1, h2, n, hn, hall, by simpa [initState] using htf⟩

/-- A steady 30-fps source: 150 successful reads, the k-th completing
33333334·k nanoseconds after the session start, which spreads exactly 150
frames over the 5-second test duration. -/
def steadyReads : List (Option Nat) :=
  (List.range 150).map (fun k => some ((k + 1) * 33333334))

set_option maxRecDepth 8000 in
/-- C1 witness: the steady source yields the summary total = 150 frames,
elapsed = 5 whole seconds, five per-second reports of 30 frames, and an
average FPS of 150 / 5 = 30. -/
theorem benchSummary_avg_witness :
    runBench 0 steadyReads =
      some (Outcome.done 150 5 (((150 : Nat) : ℚ) / ((5 : Nat) : ℚ)) [30, 30, 30, 30, 30]) ∧
    (((150 : Nat) : ℚ) / ((5 : Nat) : ℚ)) = 30 ∧
    (((150 : Nat) : ℚ) / ((5 : Nat) : ℚ)) = ((150 : Nat) : ℚ) / ((5 : Nat) : ℚ) := by
  have hdone : runBench 0 steadyReads =
      some (Outcome.done 150 5 (((150 : Nat) : ℚ) / ((5 : Nat) : ℚ)) [30, 30, 30, 30, 30]) := by
    with_unfolding_all decide
  refine ⟨hdone, by with_unfolding_all decide, ?_⟩
  exact (benchSummary_avg 0 steadyReads 150 5 _ [30, 30, 30, 30, 30] hdone).1

/-! ## C7 -/

/-- C7: if the reads of a run are some successes (all completing before
the test duration elapses) followed by a failed read, the loop stops at
the failed read with the partial counts accumulated so far — the failing
iteration increments neither counter, the tokens after the failure are
never consumed, and the outcome is the `failed` one, which carries no
average-FPS summary. -/
theorem readFailure_partialCounts (start : Nat) (p : List (Option Nat))
    (hp : ∀ x ∈ p, ∃ t, x = some t ∧ secondsOf (t - start) < test_duration_sec) :
    ∃ ls log, ∀ rest : List (Option Nat),
      runBench start (p ++ none :: rest) = some (Outcome.failed p.length ls log) := by
  obtain ⟨ls, log, h⟩ := runLoop_fail_prefix start p (initState start) hp
  exact ⟨ls, log, fun rest => by simpa [initState] using h rest⟩

/-- C7 witness: one successful read at 1 second, then a read failure: the
benchmark stops with total = 1 whatever comes afterwards. -/
theorem readFailure_partialCounts_witness :
    ∃ ls log, ∀ rest : List (Option Nat),
      runBench 0 ([some 1000000000] ++ none :: rest) =
        some (Outcome.failed 1 ls log) := by
  have h := readFailure_partialCounts 0 [some 1000000000]
    (by intro x hx; simp only [List.mem_singleton] at hx; exact ⟨1000000000, hx, by decide⟩)
  simpa using h

/-! ## C8 -/

/-- C8: across every successful step of the benchmark loop the running
total increases by exactly one (so the counters never decrease across the
run), and the per-interval counter is reset to zero exactly when at least
one whole second has elapsed since the last report — in which case the
just-completed per-second count is reported (appended to the log) and the
report timestamp moves — while the running total is untouched by the
reset; a failing step leaves both counters unchanged. -/
theorem counters_step_invariant :
    ∀ (start now : Nat) (s : LoopState),
      (updateCounters s now).total = s.total + 1 ∧
      (updateCounters s now).lastSec =
        (if 1 ≤ secondsOf (now - s.lastReport) then 0 else s.lastSec + 1) ∧
      (updateCounters s now).log =
        (if 1 ≤ secondsOf (now - s.lastReport) then s.log ++ [s.lastSec + 1] else s.log) ∧
      (updateCounters s now).lastReport =
        (if 1 ≤ secondsOf (now - s.lastReport) then now else s.lastReport) ∧
      stepLoop start s none = Sum.inr (Outcome.failed s.total s.lastSec s.log) := by
  intro start now s
  refine ⟨?_, ?_, ?_, ?_, rfl⟩ <;>
    · simp only [updateCounters]
      split <;> rfl

/-! ## C10 -/

/-- C10: when the device opens successfully and a frame read later fails
(before the test duration elapses), the program still reaches the normal
epilogue: the capture device is released and the process exits with status
code 0 — the same exit code as a normal completion. -/
theorem readFailure_exitCode (start : Nat) (p : List (Option Nat))
    (hp : ∀ x ∈ p, ∃ t, x = some t ∧ secondsOf (t - start) < test_duration_sec) :
    (∃ ls log, ∀ rest : List (Option Nat),
        mainRun [] true start (p ++ none :: rest) =
          MainResult.finished (Outcome.failed p.length ls log) ∧
        exitCode (mainRun [] true start (p ++ none :: rest)) = some 0 ∧
        released (mainRun [] true start (p ++ none :: rest)) = true) ∧
    (∀ o : Outcome, exitCode (MainResult.finished o) = some 0 ∧
        released (MainResult.finished o) = true) := by
  refine ⟨?_, fun o => ⟨rfl, rfl⟩⟩
  obtain ⟨ls, log, h⟩ := runLoop_fail_prefix start p (initState start) hp
  refine ⟨ls, log, fun rest => ?_⟩
  have hbench : runBench start (p ++ none :: rest) =
      some (Outcome.failed p.length ls log) := by
    simpa [initState] using h rest
  rw [mainRun_noArgs_eq, hbench]
  exact ⟨rfl, rfl, rfl⟩

/-- C10 witness: an immediately failing read ends the run in the released,
exit-code-0 state. -/
theorem readFailure_exitCode_witness :
    (∃ ls log, ∀ rest : List (Option Nat),
        mainRun [] true 0 ([] ++ none :: rest) =
          MainResult.finished (Outcome.failed ([] : List (Option Nat)).length ls log) ∧
        exitCode (mainRun [] true 0 ([] ++ none :: rest)) = some 0 ∧
        released (mainRun [] true 0 ([] ++ none :: rest)) = true) ∧
    (∀ o : Outcome, exitCode (MainResult.finished o) = some 0 ∧
        released (MainResult.finished o) = true) :=
  readFailure_exitCode 0 [] (by simp)
